import Mathlib

/-!
Verification of the charity-prospector qualification pipeline (src/app.py).

The Python source is shallowly embedded below.  Conventions used throughout:

* A Python dict with optional keys becomes a structure whose fields are
  `Option`-typed; an absent key and a JSON `null` value are both `none`
  (the source treats them identically via `dict.get`).
* Python numbers (JSON numbers and the results of `float(...)`) are
  modelled as exact rationals `ℚ`.  `float()` on a decimal literal string
  is modelled by `parseFloat?` below, which produces the exact decimal
  value; strings Python would reject with `ValueError` give `none`.
  (Special forms such as `inf`, `nan` and digit underscores, which never
  occur in the tax-filing data this program reads, are modelled as
  unparseable.)
* Python truthiness of a string/number/list is spelled out at each use
  (`None` and `""`/`0`/`[]` are falsy).
* An XML document parsed by `xml.etree.ElementTree` becomes the tree
  `XmlElem`; `elem.iter()` is the preorder traversal `iterList` (the
  element itself first, then descendants), and `elem.text` is the
  `text` field.  `Option XmlElem` stands for content that may have
  failed to parse (`none` = `ET.fromstring` raised).
-/

/- ────────────────────────── string helpers ────────────────────────── -/

/-- Byte values of the whitespace characters stripped by Python's
`str.strip()` / accepted around `float()` literals. -/
def pyWhitespace : List Nat := [9, 10, 11, 12, 13, 32]

/-- Python `str.strip()` (ASCII whitespace). -/
def strTrim (s : String) : String :=
  String.mk (((s.toList.dropWhile fun c => pyWhitespace.contains c.toNat).reverse.dropWhile
      fun c => pyWhitespace.contains c.toNat).reverse)

/-- Python `str.lower()` (ASCII case folding, which covers every keyword
and tag the source compares). -/
def strLower (s : String) : String := String.mk (s.toList.map Char.toLower)

/-- Python substring test `pat in s`. -/
def strContains (s pat : String) : Bool :=
  s.toList.tails.any fun t => pat.toList.isPrefixOf t

/-- Value of a list of decimal digit characters. -/
def digitsToNat (ds : List Char) : Nat :=
  ds.foldl (fun n c => 10 * n + (c.toNat - 48)) 0

/-- Exponent suffix of a float literal (after the `e`/`E`), applied to a
mantissa given as numerator/denominator. -/
def parseExpPart (num : Int) (den : Nat) (r : List Char) : Option ℚ :=
  let se : Bool × List Char :=
    match r with
    | '+' :: t => (false, t)
    | '-' :: t => (true, t)
    | t => (false, t)
  let ed := se.2.takeWhile Char.isDigit
  let rest := se.2.dropWhile Char.isDigit
  if ed.isEmpty || !rest.isEmpty then none
  else if se.1 then some (mkRat num (den * 10 ^ digitsToNat ed))
  else some (mkRat (num * (10 : Int) ^ digitsToNat ed) den)

/-- Python `float(s)` on an ordinary decimal literal: optional surrounding
whitespace, optional sign, digits with an optional single `.`, optional
`e`/`E` exponent.  Returns the exact rational value, or `none` where
Python raises `ValueError`. -/
def parseFloat? (s : String) : Option ℚ :=
  let cs := (strTrim s).toList
  let sgn : Bool × List Char :=
    match cs with
    | '+' :: r => (false, r)
    | '-' :: r => (true, r)
    | r => (false, r)
  let ip := sgn.2.takeWhile Char.isDigit
  let rest1 := sgn.2.dropWhile Char.isDigit
  let fr : Option (List Char) × List Char :=
    match rest1 with
    | '.' :: r => (some (r.takeWhile Char.isDigit), r.dropWhile Char.isDigit)
    | r => (none, r)
  let fp := fr.1.getD []
  if ip.isEmpty && fp.isEmpty then none
  else
    let num0 : Nat := digitsToNat ip * 10 ^ fp.length + digitsToNat fp
    let num : Int := if sgn.1 then -(num0 : Int) else (num0 : Int)
    let den : Nat := 10 ^ fp.length
    match fr.2 with
    | [] => some (mkRat num den)
    | 'e' :: r => parseExpPart num den r
    | 'E' :: r => parseExpPart num den r
    | _ => none

/- ─────────────── officers / contacts (app.py lines 350-383) ─────────────── -/

/-- One officer/contact record (a Python dict with optional keys; Form 990
officers carry the first four keys, Apollo contacts the enrichment keys;
`relevance_score` and `source` are written by the scorer). -/
structure Person where
  name : Option String := none
  title : Option String := none
  compensation : Option ℚ := none
  hours_per_week : Option String := none
  relevance_score : Option Nat := none
  source : Option String := none
  email : Option String := none
  linkedin_url : Option String := none
  phone : Option String := none
deriving DecidableEq

/-- `fundraising_kw` list, app.py lines 352-354. -/
def fundraising_kw : List String :=
  ["development", "fundrais", "advancement", "donor", "philanthrop",
   "annual giving", "major gift", "planned giving", "campaign",
   "chief development", "cdo", "vp develop", "vice president develop"]

/-- `leadership_kw` list, app.py lines 355-356. -/
def leadership_kw : List String :=
  ["chief", "president", "executive director", "ceo", "cfo", "coo",
   "vp", "vice president", "svp", "evp", "director", "secretary", "treasurer"]

/-- The `for kw in ...: if kw in title: score += w; break` loops
(app.py lines 362-369): the first matching keyword contributes `w`,
then the loop breaks. -/
def kwBonus (title : String) (w : Nat) : List String → Nat
  | [] => 0
  | kw :: rest => if strContains title kw then w else kwBonus title w rest

/-- `(officer.get('title', '') or '').lower()` (app.py line 360). -/
def pyTitle (o : Person) : String := strLower (o.title.getD "")

/-- `if officer.get('compensation', 0) and officer['compensation'] > 0`
(app.py line 370): the got value must be truthy (present and nonzero)
and positive. -/
def compBonus (o : Person) : Nat :=
  if o.compensation.getD 0 ≠ 0 ∧ 0 < o.compensation.getD 0 then 3 else 0

/-- `try: if float(officer.get('hours_per_week', '0')) >= 30: score += 2
except: pass` (app.py lines 372-376). -/
def hoursBonus (o : Person) : Nat :=
  match parseFloat? (o.hours_per_week.getD "0") with
  | some v => if 30 ≤ v then 2 else 0
  | none => 0

/-- The score accumulated for one officer (app.py lines 360-376). -/
def scoreOfficer (o : Person) : Nat :=
  kwBonus (pyTitle o) 10 fundraising_kw + kwBonus (pyTitle o) 5 leadership_kw
    + compBonus o + hoursBonus o

/-- The in-place writes `officer['relevance_score'] = score;
officer['source'] = 'Form 990'` (app.py lines 378-379). -/
def updateOfficer (o : Person) : Person :=
  { o with relevance_score := some (scoreOfficer o), source := some "Form 990" }

/-- The `scored` list of app.py lines 358-380, with each surviving dict
paired with the index of the input record it aliases (the index plays the
role of Python object identity). -/
def ffcPairsFrom : Nat → List Person → List (Nat × Person)
  | _, [] => []
  | i, o :: rest =>
    if 0 < scoreOfficer o then (i, updateOfficer o) :: ffcPairsFrom (i + 1) rest
    else ffcPairsFrom (i + 1) rest

def ffcPairs (officers : List Person) : List (Nat × Person) := ffcPairsFrom 0 officers

/-- The sort key `(x.get('relevance_score', 0), x.get('compensation', 0))`
(app.py line 382). -/
def sortKey (p : Person) : Nat × ℚ := (p.relevance_score.getD 0, p.compensation.getD 0)

/-- Lexicographic order on sort keys (Python tuple comparison). -/
def keyLE (x y : Nat × ℚ) : Prop := x.1 < y.1 ∨ (x.1 = y.1 ∧ x.2 ≤ y.2)

instance : DecidableRel keyLE := fun x y =>
  inferInstanceAs (Decidable (x.1 < y.1 ∨ (x.1 = y.1 ∧ x.2 ≤ y.2)))

/-- `a` sorts no later than `b` under `sort(key=..., reverse=True)`:
descending comparison of the keys.  Python's sort is stable, as is
`List.insertionSort`, so sorting with this total preorder reproduces the
source's ordering exactly. -/
def rankGE (a b : Nat × Person) : Prop := keyLE (sortKey b.2) (sortKey a.2)

instance : DecidableRel rankGE := fun a b =>
  inferInstanceAs (Decidable (keyLE (sortKey b.2) (sortKey a.2)))

instance : IsTotal (Nat × Person) rankGE :=
  ⟨fun a b => by
    unfold rankGE keyLE
    rcases Nat.lt_trichotomy (sortKey b.2).1 (sortKey a.2).1 with h | h | h
    · exact Or.inl (Or.inl h)
    · rcases le_total (sortKey b.2).2 (sortKey a.2).2 with h2 | h2
      · exact Or.inl (Or.inr ⟨h, h2⟩)
      · exact Or.inr (Or.inr ⟨h.symm, h2⟩)
    · exact Or.inr (Or.inl h)⟩

instance : IsTrans (Nat × Person) rankGE :=
  ⟨fun a b c hab hbc => by
    unfold rankGE keyLE at hab hbc ⊢
    rcases hab with h1 | ⟨e1, l1⟩ <;> rcases hbc with h2 | ⟨e2, l2⟩
    · exact Or.inl (h2.trans h1)
    · exact Or.inl (e2 ▸ h1)
    · exact Or.inl (e1 ▸ h2)
    · exact Or.inr ⟨e2.trans e1, l2.trans l1⟩⟩

/-- Descending key order on the officer records themselves. -/
def personGE (a b : Person) : Prop := keyLE (sortKey b) (sortKey a)

/-- The `scored` list after `scored.sort(key=..., reverse=True)`
(app.py line 382), still paired with input indices. -/
def ffcRankedPairs (officers : List Person) : List (Nat × Person) :=
  List.insertionSort rankGE (ffcPairs officers)

/-- `scored[:4]` (app.py line 383), paired with input indices. -/
def ffcTop4 (officers : List Person) : List (Nat × Person) :=
  (ffcRankedPairs officers).take 4

/-- `filter_fundraising_contacts` (app.py lines 350-383): the returned
record values. -/
def filter_fundraising_contacts (officers : List Person) : List Person :=
  (ffcTop4 officers).map Prod.snd

/-- The full sorted surviving list (before the `[:4]` cut). -/
def ffcAll (officers : List Person) : List Person :=
  (ffcRankedPairs officers).map Prod.snd

/-- The caller's officer records after `filter_fundraising_contacts`
returns: each dict scoring above 0 has been mutated in place
(app.py lines 378-379), the rest are untouched. -/
def ffcStore (officers : List Person) : List Person :=
  officers.map fun o => if 0 < scoreOfficer o then updateOfficer o else o

/- ──────────────────── XML model and tag extraction ──────────────────── -/

/-- A parsed `xml.etree.ElementTree` element: tag, text (text before the
first child; `none` when absent) and child elements. -/
inductive XmlElem where
  | node (tag : String) (text : Option String) (children : List XmlElem)

def XmlElem.tag : XmlElem → String
  | .node t _ _ => t

def XmlElem.text : XmlElem → Option String
  | .node _ x _ => x

def XmlElem.children : XmlElem → List XmlElem
  | .node _ _ cs => cs

mutual
/-- `elem.iter()`: the element itself, then all descendants, in document
(preorder) order. -/
def iterList : XmlElem → List XmlElem
  | .node t x cs => .node t x cs :: iterListAll cs

def iterListAll : List XmlElem → List XmlElem
  | [] => []
  | c :: cs => iterList c ++ iterListAll cs
end

/-- `tag.split('}')[-1] if '}' in tag else tag` (namespace stripping):
the characters after the last `\x7d`. -/
def localTagAux : List Char → List Char → List Char
  | acc, [] => acc
  | acc, c :: rest =>
    if c.toNat = 125 then localTagAux [] rest else localTagAux (acc ++ [c]) rest

def localTag (t : String) : String := String.mk (localTagAux [] t.toList)

/-- Truthy `elem.text` (`None` and the empty string are falsy). -/
def pyText (e : XmlElem) : Option String :=
  match e.text with
  | some t => if t = "" then none else some t
  | none => none

/-- One inner loop `for child in entry.iter(): if ctag == tg and
child.text: ...; break`: the text of the first element in `entry`'s
subtree whose local tag is `tg` and whose text is truthy. -/
def findTagText (entry : XmlElem) (tg : String) : Option String :=
  ((iterList entry).filterMap fun c => if localTag c.tag = tg then pyText c else none).head?

/-- Outer candidate loop for text fields (app.py lines 202-210 etc.):
candidates are tried in list order; the first that finds a truthy text
anywhere in the subtree wins. -/
def firstTagText (entry : XmlElem) : List String → Option String
  | [] => none
  | tg :: rest =>
    match findTagText entry tg with
    | some t => some t
    | none => firstTagText entry rest

/-- Outer candidate loop for numeric fields (app.py lines 220-231 etc.):
per candidate the first matching element with truthy text ends that
candidate's scan (`break` sits outside the `try`), and a `ValueError`
leaves the field unset, so an unparseable hit falls through to the next
candidate tag. -/
def firstTagAmt (entry : XmlElem) : List String → Option ℚ
  | [] => none
  | tg :: rest =>
    match findTagText entry tg with
    | some t =>
      match parseFloat? t with
      | some v => some v
      | none => firstTagAmt entry rest
    | none => firstTagAmt entry rest

/- ──────────────── Schedule G parser (app.py lines 183-281) ──────────────── -/

structure Agency where
  name : Option String := none
  amount_paid : Option ℚ := none
  amount_raised : Option ℚ := none
  activity : Option String := none
  city : Option String := none
  state : Option String := none
deriving DecidableEq

def scheduleG_group_tags : List String :=
  ["FundraiserActivityInfoGrp", "ProfessionalFundraising",
   "FundraisingActivityGroup", "ProfFundRaisingGrp"]

def agency_name_tags : List String :=
  ["PersonNm", "BusinessNameLine1Txt", "BusinessNameLine1",
   "BusinessName", "OrganizationBusinessName"]

def amount_paid_tags : List String :=
  ["RetainedByContractorAmt", "AmtPaidToFundraiser",
   "CompensationAmount", "AmountPaidToFundraiser", "CompensationAmt"]

def amount_raised_tags : List String :=
  ["GrossReceiptsFromActivityAmt", "AmountRaisedByContractor",
   "GrossReceiptsFromActivity"]

def activity_tags : List String := ["ActivityTxt", "Activity", "Description"]

def city_tags : List String := ["CityNm", "City"]

def state_abbr_tags : List String := ["StateAbbreviationCd", "State"]

/-- Truthiness of an optional string (`None` and `""` falsy). -/
def pyTruthyStr : Option String → Bool
  | some s => s != ""
  | none => false

/-- Field extraction for one fundraiser-activity group
(app.py lines 198-274). -/
def extractAgency (entry : XmlElem) : Agency :=
  let name0 := (firstTagText entry agency_name_tags).map strTrim
  let name1 :=
    match name0 with
    | some t => some t
    | none => (findTagText entry "BusinessNameLine1Txt").map strTrim
  { name := name1,
    amount_paid := firstTagAmt entry amount_paid_tags,
    amount_raised := firstTagAmt entry amount_raised_tags,
    activity := (firstTagText entry activity_tags).map strTrim,
    city := (firstTagText entry city_tags).map strTrim,
    state := (firstTagText entry state_abbr_tags).map strTrim }

/-- `parse_schedule_g_from_content` (app.py lines 183-281).  `none` input
models empty bytes or an `ET.fromstring` failure (both yield `[]`). -/
def parse_schedule_g_from_content (xml : Option XmlElem) : List Agency :=
  match xml with
  | none => []
  | some root =>
    let entries := (iterList root).filter fun e =>
      scheduleG_group_tags.contains (localTag e.tag)
    (entries.map extractAgency).filter fun a => pyTruthyStr a.name

/- ──────── fundraising expense extraction (app.py lines 128-156) ──────── -/

/-- The tuple tested on app.py line 135. -/
def fundraising_total_tags : List String :=
  ["CYTotalFundraisingExpenseAmt", "TotalFundrsngExpCurrentYrAmt"]

/-- First loop of `get_fundraising_expense_from_xml` (app.py lines
133-140): scan all elements in document order; the first whose local tag
is either candidate and whose truthy text parses as a float is returned;
an unparseable or missing text just continues the scan. -/
def firstLoopScan : List XmlElem → Option ℚ
  | [] => none
  | e :: rest =>
    if fundraising_total_tags.contains (localTag e.tag) then
      match pyText e with
      | some t =>
        match parseFloat? t with
        | some v => some v
        | none => firstLoopScan rest
      | none => firstLoopScan rest
    else firstLoopScan rest

mutual
/-- Structural element equality, modelling the identity comparison of
`elem in list(p)` (distinct `ElementTree` objects that are structurally
identical are conflated; no claim depends on such documents). -/
def xmlBeq : XmlElem → XmlElem → Bool
  | .node t1 x1 c1, .node t2 x2 c2 => t1 == t2 && x1 == x2 && xmlBeqList c1 c2

def xmlBeqList : List XmlElem → List XmlElem → Bool
  | [], [] => true
  | a :: la, b :: lb => xmlBeq a b && xmlBeqList la lb
  | _, _ => false
end

/-- Inner parent scan of the second loop (app.py lines 144-153): find a
`p` having `e` among its direct children whose local tag contains
"Total", and return `e`'s parsed text. -/
def scanParents (e : XmlElem) : List XmlElem → Option ℚ
  | [] => none
  | p :: ps =>
    if p.children.any fun c => xmlBeq c e then
      if strContains (localTag p.tag) "Total" then
        match pyText e with
        | some t =>
          match parseFloat? t with
          | some v => some v
          | none => scanParents e ps
        | none => scanParents e ps
      else scanParents e ps
    else scanParents e ps

/-- Second loop of `get_fundraising_expense_from_xml` (app.py lines
141-153): fallback on `FundraisingAmt` elements whose parent's tag
contains "Total". -/
def secondLoopScan (root : XmlElem) : List XmlElem → Option ℚ
  | [] => none
  | e :: rest =>
    if localTag e.tag = "FundraisingAmt" then
      match scanParents e (iterList root) with
      | some v => some v
      | none => secondLoopScan root rest
    else secondLoopScan root rest

/-- `get_fundraising_expense_from_xml` (app.py lines 128-156).  `none`
input models empty bytes or a parse failure (result 0). -/
def get_fundraising_expense_from_xml (xml : Option XmlElem) : ℚ :=
  match xml with
  | none => 0
  | some root =>
    match firstLoopScan (iterList root) with
    | some v => v
    | none =>
      match secondLoopScan root (iterList root) with
      | some v => v
      | none => 0

/- ──────────────── revenue check (app.py lines 112-124) ──────────────── -/

structure Filing where
  totrevenue : Option ℚ := none
  totrevnue : Option ℚ := none
  totrcptperbks : Option ℚ := none
  totfuncexpns : Option ℚ := none
  tax_prd_yr : Option Nat := none
  tax_prd : Option Nat := none
  prd_end : Option String := none
  formtype : Option String := none
  pdf_url : Option String := none
  updated : Option String := none
deriving DecidableEq

structure OrgInfo where
  ein : Option Nat := none
  name : Option String := none
  city : Option String := none
  state : Option String := none
  ntee_code : Option String := none
  subseccd : Option Nat := none
  latest_object_id : Option String := none
deriving DecidableEq

/-- An organization detail record (`org_data`).  `filings_with_data =
none` models both a missing key and a `null` value; a falsy `org_data`
itself is the `none` of the `Option OrgDetailResp` passed around. -/
structure OrgDetailResp where
  organization : Option OrgInfo := none
  filings_with_data : Option (List Filing) := none
deriving DecidableEq

/-- Python `a or b` on optional numbers: `None` and `0` are falsy. -/
def pyOrQ (a b : Option ℚ) : Option ℚ :=
  match a with
  | some x => if x = 0 then b else some x
  | none => b

/-- `check_revenue` (app.py lines 112-124). -/
def check_revenue (org_data : Option OrgDetailResp) (min_rev max_rev : ℚ) :
    Bool × ℚ × ℚ :=
  match org_data with
  | none => (false, 0, 0)
  | some od =>
    match od.filings_with_data with
    | none => (false, 0, 0)
    | some [] => (false, 0, 0)
    | some (filing :: _) =>
      let revenue :=
        (pyOrQ (pyOrQ filing.totrevenue filing.totrevnue) filing.totrcptperbks).getD 0
      let total_expenses := filing.totfuncexpns.getD 0
      if min_rev ≤ revenue ∧ revenue ≤ max_rev then (true, revenue, total_expenses)
      else (false, revenue, total_expenses)

/- ──────────── org details and xml url (app.py lines 103-108, 159-179) ──────────── -/

def XML_URL : String := "https://projects.propublica.org/nonprofits/download-xml"

/-- `get_xml_url` (app.py lines 103-108); a falsy `latest_object_id`
yields `None`. -/
def get_xml_url (org_data : OrgDetailResp) : Option String :=
  match org_data.organization with
  | some oi =>
    match oi.latest_object_id with
    | some oid =>
      if oid = "" then none else some (XML_URL ++ "?object_id=" ++ oid)
    | none => none
  | none => none

/-- Python `a or b` on optional naturals (`None`/`0` falsy). -/
def pyOrNat (a b : Option Nat) : Option Nat :=
  match a with
  | some n => if n = 0 then b else some n
  | none => b

/-- `prd_end or tax_prd-with-default-""`: the result is a string, a
number, or `""` (modelled as `none`). -/
def pyOrStrNat (a : Option String) (b : Option Nat) : Option (String ⊕ Nat) :=
  match a with
  | some t => if t = "" then b.map Sum.inr else some (Sum.inl t)
  | none => b.map Sum.inr

/-- The record built by `build_org_details` (app.py lines 159-179), plus
the `details["agencies"]` key written on line 755. -/
structure OrgDetails where
  ein : String
  name : String
  city : String
  state : String
  ntee_code : String
  subsection : Option Nat
  revenue : ℚ
  total_expenses : ℚ
  fundraising_expenses : ℚ
  tax_year : Option Nat
  fiscal_year_end : Option (String ⊕ Nat)
  form_type : String
  filing_url : String
  xml_url : String
  updated : String
  agencies : List Agency := []
deriving DecidableEq

def emptyOrgInfo : OrgInfo := {}

def emptyFiling : Filing := {}

/-- `build_org_details` (app.py lines 159-179). -/
def build_org_details (org_data : OrgDetailResp) (revenue total_expenses fundraising_exp : ℚ)
    (xml_url : Option String) : OrgDetails :=
  let oi := org_data.organization.getD emptyOrgInfo
  let filings := org_data.filings_with_data.getD []
  let filing := filings.headD emptyFiling
  { ein := match oi.ein with | some n => toString n | none => "",
    name := oi.name.getD "",
    city := oi.city.getD "",
    state := oi.state.getD "",
    ntee_code := oi.ntee_code.getD "",
    subsection := oi.subseccd,
    revenue := revenue,
    total_expenses := total_expenses,
    fundraising_expenses := fundraising_exp,
    tax_year := pyOrNat filing.tax_prd_yr filing.tax_prd,
    fiscal_year_end := pyOrStrNat filing.prd_end filing.tax_prd,
    form_type := filing.formtype.getD "",
    filing_url := filing.pdf_url.getD "",
    xml_url := xml_url.getD "",
    updated := filing.updated.getD "",
    agencies := [] }

/- ──────────── phase-2 contacts merge (app.py lines 795-816) ──────────── -/

/-- `c.get("name", "").lower()`. -/
def nameLower (c : Person) : String := strLower (c.name.getD "")

/-- One iteration of the Apollo merge loop (app.py lines 808-812): the
enrichment contact is appended unless its lower-cased name equals the
lower-cased name of a contact already in the list. -/
def mergeStep (contacts : List Person) (ac : Person) : List Person :=
  if (contacts.map nameLower).contains (nameLower ac) then contacts
  else contacts ++ [ac]

/-- The contacts built for one organization when enrichment is enabled
(app.py lines 795-815): Form-990 scored contacts, then deduplicated
enrichment contacts, then `contacts[:4]`. -/
def phase2_contacts (filtered_990 apollo_contacts : List Person) : List Person :=
  (apollo_contacts.foldl mergeStep filtered_990).take 4

/- ──────────────── phase-1 search loop (app.py lines 645-781) ──────────────── -/

/-- `BROAD_SEARCH_KEYWORDS` (app.py lines 37-44). -/
def BROAD_SEARCH_KEYWORDS : List String :=
  ["foundation", "hospital", "university", "association", "society",
   "institute", "museum", "community", "health", "education",
   "children", "medical", "research", "services", "arts",
   "wildlife", "conservation", "relief", "humanitarian", "scholarship",
   "veterans", "housing", "faith", "church", "mission",
   "development", "advocacy", "prevention", "counseling", "food bank"]

/-- An organization stub from a search page (`org.get("ein")` may be
absent, hence the `Option`). -/
structure OrgStub where
  ein : Option Nat := none
  name : Option String := none
deriving DecidableEq

/-- The network, as a deterministic oracle: `search` is
`search_orgs` (`none` = falsy response or missing "organizations" key;
`some` = the organizations list, possibly empty), `orgDetails` is
`get_org_details`, and `fetchXml` is `fetch_xml` (`none` = download
failed or empty body; `some none` = body that fails XML parsing). -/
structure Env where
  search : String → Nat → Option (List OrgStub)
  orgDetails : Option Nat → Option OrgDetailResp
  fetchXml : String → Option (Option XmlElem)

/-- The sidebar parameters consumed by the search loop. -/
structure Params where
  min_rev : ℚ := 0
  max_rev : ℚ := 0
  min_fund : ℚ := 0
  min_agency : ℚ := 0
  target_count : Nat := 10
  max_pages : Nat := 200
  search_query : String := ""

/-- Observable events of one run, for stating invariants: each search
call's outcome, the "Too many API errors" warning (app.py line 691), and
each detail fetch (app.py line 712). -/
inductive Event where
  | searchOk (kw : String) (page : Nat)
  | searchErr (kw : String) (page : Nat)
  | warned
  | fetched (ein : Option Nat)
deriving DecidableEq

/-- The mutable run state of the phase-1 loop (app.py lines 649-665),
plus the event trace. -/
structure SearchState where
  qualifying : List OrgDetails := []
  checked : Nat := 0
  revenue_match : Nat := 0
  seen_eins : List (Option Nat) := []
  api_errors : Nat := 0
  trace : List Event := []
deriving DecidableEq

def initState : SearchState := {}

/-- The per-organization pipeline after the dedup check (app.py lines
712-760): returns (revenue in range?, qualified details if every stage
passed).  Each `none`/`false` stage reproduces a `continue`. -/
def evalOrg (env : Env) (p : Params) (ein : Option Nat) : Bool × Option OrgDetails :=
  match env.orgDetails ein with
  | none => (false, none)
  | some od =>
    let rc := check_revenue (some od) p.min_rev p.max_rev
    if !rc.1 then (false, none)
    else
      match get_xml_url od with
      | none => (true, none)
      | some url =>
        match env.fetchXml url with
        | none => (true, none)
        | some xml =>
          let fund := get_fundraising_expense_from_xml xml
          if fund < p.min_fund then (true, none)
          else
            let agencies := parse_schedule_g_from_content xml
            if agencies.isEmpty then (true, none)
            else
              let qa := agencies.filter fun a => p.min_agency ≤ a.amount_paid.getD 0
              if qa.isEmpty then (true, none)
              else (true, some { build_org_details od rc.2.1 rc.2.2 fund (some url) with
                                 agencies := qa })

/-- Processing of one stub inside `for org in orgs` (app.py lines
703-761): the seen-EIN check comes first; a new EIN is recorded, counted
and fetched, and the pipeline result updates `revenue_match` and
`qualifying`. -/
def processOrg (env : Env) (p : Params) (s : SearchState) (org : OrgStub) : SearchState :=
  if s.seen_eins.contains org.ein then s
  else
    let s1 : SearchState :=
      { s with seen_eins := org.ein :: s.seen_eins,
               checked := s.checked + 1,
               trace := s.trace ++ [Event.fetched org.ein] }
    let r := evalOrg env p org.ein
    let s2 : SearchState :=
      if r.1 then { s1 with revenue_match := s1.revenue_match + 1 } else s1
    match r.2 with
    | some d => { s2 with qualifying := s2.qualifying ++ [d] }
    | none => s2

/-- `for org in orgs` with its early `break` once the target count is
reached (app.py lines 699-701). -/
def processOrgs (env : Env) (p : Params) : SearchState → List OrgStub → SearchState
  | s, [] => s
  | s, org :: rest =>
    if p.target_count ≤ s.qualifying.length then s
    else processOrgs env p (processOrg env p s org) rest

/-- `for page in range(pages_per_keyword)` (app.py lines 678-697): a
search error increments `api_errors`, warns at five, and breaks the page
loop; an empty page breaks; otherwise the page's stubs are processed and
pagination continues. -/
def runPages (env : Env) (p : Params) (kw : String) : Nat → Nat → SearchState → SearchState
  | _, 0, s => s
  | page, fuel + 1, s =>
    if p.target_count ≤ s.qualifying.length then s
    else
      match env.search kw page with
      | none =>
        let s1 : SearchState :=
          { s with api_errors := s.api_errors + 1,
                   trace := s.trace ++ [Event.searchErr kw page] }
        if 5 ≤ s1.api_errors then { s1 with trace := s1.trace ++ [Event.warned] } else s1
      | some orgs =>
        let s1 : SearchState := { s with trace := s.trace ++ [Event.searchOk kw page] }
        if orgs.isEmpty then s1
        else runPages env p kw (page + 1) fuel (processOrgs env p s1 orgs)

/-- `for kw_idx, keyword in enumerate(search_keywords)` (app.py lines
674-676). -/
def runKeywords (env : Env) (p : Params) (ppk : Nat) : List String → SearchState → SearchState
  | [], s => s
  | kw :: rest, s =>
    if p.target_count ≤ s.qualifying.length then s
    else runKeywords env p ppk rest (runPages env p kw 0 ppk s)

/-- `[search_query] if search_query else BROAD_SEARCH_KEYWORDS`
(app.py lines 667-670). -/
def searchKeywordsOf (p : Params) : List String :=
  if p.search_query = "" then BROAD_SEARCH_KEYWORDS else [p.search_query]

/-- The whole phase-1 search (app.py lines 645-781), with
`pages_per_keyword = max(1, max_pages // len(search_keywords))`. -/
def phase1 (env : Env) (p : Params) : SearchState :=
  let kws := searchKeywordsOf p
  runKeywords env p (max 1 (p.max_pages / kws.length)) kws initState

/- ──────────────────────── trace observations ──────────────────────── -/

/-- EINs for which a detail fetch was issued, in order. -/
def fetchedEins (tr : List Event) : List (Option Nat) :=
  tr.filterMap fun e => match e with | Event.fetched i => some i | _ => none

/-- Number of search-API errors in a trace. -/
def searchErrCount (tr : List Event) : Nat :=
  (tr.filter fun e => match e with | Event.searchErr _ _ => true | _ => false).length

/-- Whether the "Too many API errors" warning was emitted. -/
def hasWarned (tr : List Event) : Bool :=
  tr.any fun e => match e with | Event.warned => true | _ => false

/-- Length of the longest run of search errors uninterrupted by a
successful search. -/
def maxConsecErrs (tr : List Event) : Nat :=
  (tr.foldl (fun q e =>
    match e with
    | Event.searchErr _ _ => (q.1 + 1, max q.2 (q.1 + 1))
    | Event.searchOk _ _ => (0, q.2)
    | _ => q) ((0, 0) : Nat × Nat)).2

/- ──────────────────────── example inputs ──────────────────────── -/

/-- Officer matching the C2 scenario. -/
def exOfficerCDO : Person :=
  { name := some "Pat Q", title := some "Chief Development Officer",
    compensation := some 120000, hours_per_week := some "40" }

/-- Detail record with one filing whose revenue sits exactly on a bound. -/
def exDetailBoundary : OrgDetailResp :=
  { filings_with_data := some [{ totrevenue := some 10 }] }

/-- Filing with `totrevenue` present and zero and `totrevnue` nonzero:
the Python `or` chain skips the zero. -/
def exFilingZeroRev : Filing := { totrevenue := some 0, totrevnue := some 5 }

def exDetailZeroRev : OrgDetailResp := { filings_with_data := some [exFilingZeroRev] }

/-- Document in which `TotalFundrsngExpCurrentYrAmt` precedes
`CYTotalFundraisingExpenseAmt` in document order, both parseable. -/
def exDocOrder : XmlElem :=
  XmlElem.node "Return" none
    [XmlElem.node "TotalFundrsngExpCurrentYrAmt" (some "111") [],
     XmlElem.node "CYTotalFundraisingExpenseAmt" (some "222") []]

/-- Filing with all three revenue variants set and the first nonzero. -/
def exFilingThreeVals : Filing :=
  { totrevenue := some 7, totrevnue := some 9, totrcptperbks := some 11 }

def exDetailThreeVals : OrgDetailResp := { filings_with_data := some [exFilingThreeVals] }

/-- The value the first loop of `get_fundraising_expense_from_xml` would
take from one element: its parsed truthy text, provided its local tag is
one of the two total-fundraising candidates. -/
def candVal? (e : XmlElem) : Option ℚ :=
  if fundraising_total_tags.contains (localTag e.tag) then (pyText e).bind parseFloat?
  else none

/-- A fundraiser-activity group with a name and an unparseable
amount-paid text. -/
def exEntryG : XmlElem :=
  XmlElem.node "FundraiserActivityInfoGrp" none
    [XmlElem.node "PersonNm" (some "Acme Fundraising") [],
     XmlElem.node "RetainedByContractorAmt" (some "N/A") []]

def exDocG : XmlElem := XmlElem.node "Return" none [exEntryG]

/-- Form-990 contacts and Apollo contacts with pairwise distinct names. -/
def exF1 : Person := { name := some "Fa One" }
def exF2 : Person := { name := some "Fb Two" }
def exF3 : Person := { name := some "Fc Three" }
def exA1 : Person := { name := some "Ax One", relevance_score := some 8,
                       source := some "Apollo.io" }
def exA2 : Person := { name := some "Ay Two", relevance_score := some 8,
                       source := some "Apollo.io" }
def exA3 : Person := { name := some "Az Three", relevance_score := some 8,
                       source := some "Apollo.io" }

/-- A small officer roster: one scoring 0, one leadership-only, one
development leader. -/
def exOffA : Person := { name := some "A Aron", title := some "Janitor" }
def exOffB : Person := { name := some "B Brown", title := some "CEO", compensation := some 10 }
def exOffC : Person :=
  { name := some "C Cruz", title := some "Director of Development", compensation := some 5 }
def exOfficers : List Person := [exOffA, exOffB, exOffC]

/-- exOffC after the scorer's in-place writes (score 10+5+3 = 18). -/
def exOffCUpd : Person :=
  { exOffC with relevance_score := some 18, source := some "Form 990" }

/-- Run invariant for EIN dedup: fetched EINs are pairwise distinct and
all recorded in the seen-set. -/
def C8Inv (s : SearchState) : Prop :=
  (fetchedEins s.trace).Nodup ∧ ∀ i ∈ fetchedEins s.trace, i ∈ s.seen_eins

/-- Run invariant for the error counter: it equals the total number of
search errors in the trace, and the warning has fired exactly when that
total has reached five. -/
def C9Inv (s : SearchState) : Prop :=
  s.api_errors = searchErrCount s.trace ∧
    (hasWarned s.trace = true ↔ 5 ≤ s.api_errors)

/-- Environment in which the search errors are not consecutive: an error
on "foundation", a successful page on "hospital", then errors on the
next four keywords; everything else returns empty pages. -/
def env9 : Env :=
  { search := fun kw _ =>
      if kw = "foundation" then none
      else if kw = "hospital" then some [{ ein := some 1 }]
      else if kw = "university" then none
      else if kw = "association" then none
      else if kw = "society" then none
      else if kw = "institute" then none
      else some [],
    orgDetails := fun _ => none,
    fetchXml := fun _ => none }

/-- Parameters: blank query (30 broad keywords), 30 max pages, so one
page per keyword. -/
def p9 : Params := { target_count := 1, max_pages := 30 }

/-- Environment returning the same EIN 7 under two different keywords. -/
def env8 : Env :=
  { search := fun kw _ =>
      if kw = "foundation" then some [{ ein := some 7 }]
      else if kw = "hospital" then some [{ ein := some 7 }, { ein := some 8 }]
      else some [],
    orgDetails := fun _ => none,
    fetchXml := fun _ => none }

/-- A state that has already seen EIN 7, and a stub carrying it. -/
def st8 : SearchState := { seen_eins := [some 7] }

def stub8 : OrgStub := { ein := some 7 }

-- EXAMPLE_MARKER (further example inputs are inserted above this line)

/- ──────────────────────────── theorems ──────────────────────────── -/

/-- Each keyword loop with `break` adds its weight at most once: it equals
`w` when any keyword matches and `0` otherwise. -/
theorem kwBonus_eq_any (title : String) (w : Nat) (l : List String) :
    kwBonus title w l = if l.any (fun kw => strContains title kw) then w else 0 := by
  induction l with
  | nil => simp [kwBonus]
  | cons kw rest ih =>
    cases h : strContains title kw with
    | true => simp [kwBonus, h]
    | false => simp [kwBonus, h, ih]

/-- Revenue component of `check_revenue` on a nonempty filings list. -/
theorem check_revenue_rev (d : OrgDetailResp) (f : Filing) (fs : List Filing)
    (mr Mr : ℚ) (h : d.filings_with_data = some (f :: fs)) :
    (check_revenue (some d) mr Mr).2.1 =
      (pyOrQ (pyOrQ f.totrevenue f.totrevnue) f.totrcptperbks).getD 0 := by
  obtain ⟨org, fwd⟩ := d
  replace h : fwd = some (f :: fs) := h
  subst h
  show (if mr ≤ (pyOrQ (pyOrQ f.totrevenue f.totrevnue) f.totrcptperbks).getD 0 ∧
          (pyOrQ (pyOrQ f.totrevenue f.totrevnue) f.totrcptperbks).getD 0 ≤ Mr
        then (true, (pyOrQ (pyOrQ f.totrevenue f.totrevnue) f.totrcptperbks).getD 0,
              f.totfuncexpns.getD 0)
        else (false, (pyOrQ (pyOrQ f.totrevenue f.totrevnue) f.totrcptperbks).getD 0,
              f.totfuncexpns.getD 0)).2.1 =
      (pyOrQ (pyOrQ f.totrevenue f.totrevnue) f.totrcptperbks).getD 0
  split <;> rfl

/-- Match flag of `check_revenue` on a nonempty filings list. -/
theorem check_revenue_flag (d : OrgDetailResp) (f : Filing) (fs : List Filing)
    (mr Mr : ℚ) (h : d.filings_with_data = some (f :: fs)) :
    ((check_revenue (some d) mr Mr).1 = true ↔
      mr ≤ (pyOrQ (pyOrQ f.totrevenue f.totrevnue) f.totrcptperbks).getD 0 ∧
        (pyOrQ (pyOrQ f.totrevenue f.totrevnue) f.totrcptperbks).getD 0 ≤ Mr) := by
  obtain ⟨org, fwd⟩ := d
  replace h : fwd = some (f :: fs) := h
  subst h
  show (if mr ≤ (pyOrQ (pyOrQ f.totrevenue f.totrevnue) f.totrcptperbks).getD 0 ∧
          (pyOrQ (pyOrQ f.totrevenue f.totrevnue) f.totrcptperbks).getD 0 ≤ Mr
        then (true, (pyOrQ (pyOrQ f.totrevenue f.totrevnue) f.totrcptperbks).getD 0,
              f.totfuncexpns.getD 0)
        else (false, (pyOrQ (pyOrQ f.totrevenue f.totrevnue) f.totrcptperbks).getD 0,
              f.totfuncexpns.getD 0)).1 = true ↔ _
  split
  next hc => simpa using hc
  next hc => simpa using hc

/-- The degenerate cases of `check_revenue`: falsy detail record, missing
filings key, or empty filings list. -/
theorem check_revenue_empty (od : Option OrgDetailResp) (mr Mr : ℚ)
    (h : od = none ∨ ∃ d, od = some d ∧
      (d.filings_with_data = none ∨ d.filings_with_data = some [])) :
    check_revenue od mr Mr = (false, 0, 0) := by
  rcases h with rfl | ⟨d, rfl, hf | hf⟩
  · rfl
  · obtain ⟨org, fwd⟩ := d
    replace hf : fwd = none := hf
    subst hf
    rfl
  · obtain ⟨org, fwd⟩ := d
    replace hf : fwd = some [] := hf
    subst hf
    rfl

/-- C5: check_revenue's in-range test is inclusive on both bounds
(matched is true exactly when min_rev ≤ revenue ≤ max_rev, so revenue
equal to either bound qualifies), and a detail record whose filings list
is missing or empty — or a falsy detail record — always yields
(False, 0, 0). -/
theorem check_revenue_inclusive_and_empty (min_rev max_rev : ℚ) :
    (∀ od : Option OrgDetailResp,
        (od = none ∨ ∃ d, od = some d ∧
          (d.filings_with_data = none ∨ d.filings_with_data = some [])) →
        check_revenue od min_rev max_rev = (false, 0, 0))
  ∧ (∀ (d : OrgDetailResp) (f : Filing) (fs : List Filing),
        d.filings_with_data = some (f :: fs) →
        ((check_revenue (some d) min_rev max_rev).1 = true ↔
          min_rev ≤ (check_revenue (some d) min_rev max_rev).2.1 ∧
            (check_revenue (some d) min_rev max_rev).2.1 ≤ max_rev)) := by
  constructor
  · intro od h
    exact check_revenue_empty od min_rev max_rev h
  · intro d f fs h
    rw [check_revenue_rev d f fs min_rev max_rev h]
    exact check_revenue_flag d f fs min_rev max_rev h

/-- C5 witness: at the concrete inputs, the empty-filings case returns
(False, 0, 0), and with one filing of revenue exactly 10 the inclusive
bound test fires at min_rev = 10. -/
theorem check_revenue_inclusive_and_empty_witness :
    check_revenue (some { filings_with_data := some [] }) 10 20 = (false, 0, 0)
  ∧ ((check_revenue (some exDetailBoundary) 10 20).1 = true ↔
      10 ≤ (check_revenue (some exDetailBoundary) 10 20).2.1 ∧
        (check_revenue (some exDetailBoundary) 10 20).2.1 ≤ 20)
  ∧ (check_revenue (some exDetailBoundary) 10 20).1 = true :=
  ⟨(check_revenue_inclusive_and_empty 10 20).1 _ (Or.inr ⟨_, rfl, Or.inr rfl⟩),
   (check_revenue_inclusive_and_empty 10 20).2 _ _ [] rfl,
   by decide⟩

/-- C6 counterexample: in the most recent filing `totrevenue` is present
and non-null with value 0, yet check_revenue reports revenue 5 (the value
of the later variant `totrevnue`): the Python `or` chain skips a zero
value, so "first non-null wins" is false. -/
theorem check_revenue_zero_skipped_cex :
    exFilingZeroRev.totrevenue = some 0
  ∧ exFilingZeroRev.totrevnue = some 5
  ∧ (check_revenue (some exDetailZeroRev) 0 100).2.1 = 5
  ∧ (5 : ℚ) ≠ 0 := by
  refine ⟨rfl, rfl, by decide, by decide⟩

/-- C6 amended: check_revenue tries totrevenue, totrevnue, totrcptperbks
in that order on the first-listed filing, where the first non-null AND
non-zero value wins (a null or zero value falls through to the next
variant); if every variant is null or zero the revenue defaults to 0. -/
theorem check_revenue_fallback_order (d : OrgDetailResp) (f : Filing)
    (fs : List Filing) (mr Mr : ℚ) (h : d.filings_with_data = some (f :: fs)) :
    (∀ v, f.totrevenue = some v → v ≠ 0 →
        (check_revenue (some d) mr Mr).2.1 = v)
  ∧ ((f.totrevenue = none ∨ f.totrevenue = some 0) →
      ∀ v, f.totrevnue = some v → v ≠ 0 →
        (check_revenue (some d) mr Mr).2.1 = v)
  ∧ ((f.totrevenue = none ∨ f.totrevenue = some 0) →
      (f.totrevnue = none ∨ f.totrevnue = some 0) →
      ∀ v, f.totrcptperbks = some v →
        (check_revenue (some d) mr Mr).2.1 = v)
  ∧ ((f.totrevenue = none ∨ f.totrevenue = some 0) →
      (f.totrevnue = none ∨ f.totrevnue = some 0) →
      (f.totrcptperbks = none ∨ f.totrcptperbks = some 0) →
        (check_revenue (some d) mr Mr).2.1 = 0) := by
  rw [check_revenue_rev d f fs mr Mr h]
  refine ⟨?_, ?_, ?_, ?_⟩
  · intro v hv hv0
    simp [pyOrQ, hv, hv0]
  · rintro (h1 | h1) v hv hv0 <;> simp [pyOrQ, h1, hv, hv0]
  · rintro (h1 | h1) (h2 | h2) v hv <;>
      cases hv0 : decide (v = 0) <;>
      simp_all [pyOrQ]
  · rintro (h1 | h1) (h2 | h2) (h3 | h3) <;> simp [pyOrQ, h1, h2, h3]

/-- C6 amended witness: a filing whose first variant is nonzero yields
that value even when the later variants are also set; and the
counterexample filing with a zero first variant yields the second. -/
theorem check_revenue_fallback_order_witness :
    (check_revenue (some exDetailThreeVals) 0 100).2.1 = 7
  ∧ (check_revenue (some exDetailZeroRev) 0 100).2.1 = 5 :=
  ⟨(check_revenue_fallback_order exDetailThreeVals exFilingThreeVals [] 0 100 rfl).1
      7 rfl (by decide),
   (check_revenue_fallback_order exDetailZeroRev exFilingZeroRev [] 0 100 rfl).2.1
      (Or.inr rfl) 5 rfl (by decide)⟩

/-- C2: the scorer adds at most one +10 fundraising-keyword bonus and at
most one +5 leadership bonus (each equal to the single weight whenever
any keyword of the category matches the lower-cased title), +3 for
positive present compensation, +2 for hours parsing to at least 30; an
officer titled "Chief Development Officer" with positive compensation
and hours ≥ 30 scores exactly 20. -/
theorem scorer_bonus_caps :
    (∀ o : Person,
        scoreOfficer o =
          (if fundraising_kw.any (fun kw => strContains (pyTitle o) kw) then 10 else 0)
        + (if leadership_kw.any (fun kw => strContains (pyTitle o) kw) then 5 else 0)
        + compBonus o + hoursBonus o)
  ∧ (∀ o : Person, o.title = some "Chief Development Officer" →
      (∃ c, o.compensation = some c ∧ 0 < c) →
      (∃ h q, o.hours_per_week = some h ∧ parseFloat? h = some q ∧ 30 ≤ q) →
      scoreOfficer o = 20) := by
  constructor
  · intro o
    rw [scoreOfficer, kwBonus_eq_any, kwBonus_eq_any]
  · rintro o hT ⟨c, hc, hc0⟩ ⟨h, q, hh, hpq, h30⟩
    have hkw : pyTitle o = "chief development officer" := by
      rw [pyTitle, hT]
      decide
    have hcb : compBonus o = 3 := by
      rw [compBonus, hc]
      rw [if_pos ⟨by simpa using hc0.ne', by simpa using hc0⟩]
    have hhb : hoursBonus o = 2 := by
      rw [hoursBonus, hh]
      simp only [Option.getD_some]
      rw [hpq]
      dsimp only
      rw [if_pos h30]
    rw [scoreOfficer, hkw, hcb, hhb]
    decide

/-- C2 witness: the concrete officer of the scenario scores exactly 20. -/
theorem scorer_bonus_caps_witness : scoreOfficer exOfficerCDO = 20 :=
  scorer_bonus_caps.2 exOfficerCDO rfl ⟨120000, rfl, by decide⟩
    ⟨"40", 40, rfl, by decide, by decide⟩

/-- `mergeStep` only ever appends (possibly nothing) to the contact list. -/
theorem mergeStep_extend (c : List Person) (a : Person) :
    ∃ t, mergeStep c a = c ++ t := by
  rw [mergeStep]
  split
  · exact ⟨[], by simp⟩
  · exact ⟨[a], rfl⟩

/-- The whole Apollo merge fold only ever appends to the contact list. -/
theorem foldl_mergeStep_extend (l : List Person) :
    ∀ c, ∃ t, l.foldl mergeStep c = c ++ t := by
  induction l with
  | nil => exact fun c => ⟨[], by simp⟩
  | cons a l ih =>
    intro c
    obtain ⟨t1, h1⟩ := mergeStep_extend c a
    obtain ⟨t2, h2⟩ := ih (c ++ t1)
    exact ⟨t1 ++ t2, by simp [List.foldl_cons, h1, h2]⟩

/-- C4: in the contacts phase the 4-item cap is applied only after the
Form-990 and enrichment contacts are combined; an enrichment contact is
skipped exactly when its lower-cased name equals the lower-cased name of
a contact already in the list; and 3 Form-990 contacts plus 3
non-overlapping enrichment contacts yield exactly 4 entries — the 3
Form-990 contacts in their scored order followed by the first enrichment
contact. -/
theorem contacts_merge_spec :
    (∀ (contacts : List Person) (ac : Person),
        (mergeStep contacts ac = contacts ↔
          (contacts.map nameLower).contains (nameLower ac) = true))
  ∧ (∀ (f : List Person) (a1 a2 a3 : Person),
        f.length = 3 →
        (∀ c ∈ f, nameLower c ≠ nameLower a1) →
        (∀ c ∈ f, nameLower c ≠ nameLower a2) →
        (∀ c ∈ f, nameLower c ≠ nameLower a3) →
        phase2_contacts f [a1, a2, a3] = f ++ [a1] ∧
          (phase2_contacts f [a1, a2, a3]).length = 4) := by
  constructor
  · intro contacts ac
    rw [mergeStep]
    split
    next h => simpa using h
    next h =>
      constructor
      · intro heq
        have := congrArg List.length heq
        simp at this
      · intro hc
        exact absurd hc (by simpa using h)
  · intro f a1 a2 a3 hlen h1 _h2 _h3
    have hnotmem : nameLower a1 ∉ f.map nameLower := by
      intro hmem
      obtain ⟨c, hcf, hceq⟩ := List.mem_map.mp hmem
      exact h1 c hcf hceq
    have hc1 : ((f.map nameLower).contains (nameLower a1)) = false := by
      simpa using hnotmem
    have step1 : mergeStep f a1 = f ++ [a1] := by
      rw [mergeStep, if_neg]
      intro hcc
      rw [hc1] at hcc
      exact Bool.noConfusion hcc
    obtain ⟨t, ht⟩ := foldl_mergeStep_extend [a2, a3] (f ++ [a1])
    have hfold : [a1, a2, a3].foldl mergeStep f = (f ++ [a1]) ++ t := by
      rw [List.foldl_cons, step1]
      exact ht
    have hlen4 : (f ++ [a1]).length = 4 := by simp [hlen]
    have hres : phase2_contacts f [a1, a2, a3] = f ++ [a1] := by
      rw [phase2_contacts, hfold, ← hlen4, List.take_left]
    exact ⟨hres, by rw [hres]; exact hlen4⟩

/-- C4 witness: at the concrete 3+3 contact lists with distinct names,
the merged list is the three Form-990 contacts followed by the first
Apollo contact, of length 4; and a mergeStep on a name collision keeps
the list unchanged. -/
theorem contacts_merge_spec_witness :
    (phase2_contacts [exF1, exF2, exF3] [exA1, exA2, exA3]
        = [exF1, exF2, exF3] ++ [exA1]
      ∧ (phase2_contacts [exF1, exF2, exF3] [exA1, exA2, exA3]).length = 4)
  ∧ (mergeStep [exF1] { exA1 with name := some "FA ONE" } = [exF1] ↔
      (([exF1].map nameLower).contains
        (nameLower { exA1 with name := some "FA ONE" })) = true) :=
  ⟨contacts_merge_spec.2 [exF1, exF2, exF3] exA1 exA2 exA3 (by decide)
      (by decide) (by decide) (by decide),
   contacts_merge_spec.1 [exF1] { exA1 with name := some "FA ONE" }⟩

/-- If every amount-paid candidate's first truthy hit in the subtree is
unparseable (or absent), the amount field stays unset. -/
theorem firstTagAmt_none (entry : XmlElem) :
    ∀ tags : List String,
      (∀ tg ∈ tags, ∀ t, findTagText entry tg = some t → parseFloat? t = none) →
      firstTagAmt entry tags = none := by
  intro tags
  induction tags with
  | nil => intro _; rfl
  | cons tg rest ih =>
    intro h
    rw [firstTagAmt]
    cases hf : findTagText entry tg with
    | none => exact ih fun tg2 h2 => h tg2 (List.mem_cons_of_mem _ h2)
    | some t =>
      have hp := h tg (List.mem_cons_self _ _) t hf
      dsimp only
      rw [hp]
      exact ih fun tg2 h2 => h tg2 (List.mem_cons_of_mem _ h2)

/-- C7: every agency returned by parse_schedule_g_from_content has a
truthy name (a group with no extracted name is discarded even when other
fields were extracted — no nameless agency value can appear in the
output), and when every amount-paid candidate hit is unparseable the
amount_paid field is absent, not 0. -/
theorem scheduleG_name_amount_spec :
    (∀ (xml : Option XmlElem) (a : Agency), a ∈ parse_schedule_g_from_content xml →
        ∃ s, a.name = some s ∧ s ≠ "")
  ∧ (∀ a : Agency, pyTruthyStr a.name = false →
        ∀ xml, a ∉ parse_schedule_g_from_content xml)
  ∧ (∀ entry : XmlElem,
        (∀ tg ∈ amount_paid_tags, ∀ t, findTagText entry tg = some t →
          parseFloat? t = none) →
        (extractAgency entry).amount_paid = none) := by
  refine ⟨?_, ?_, ?_⟩
  · rintro (_ | root) a ha
    · cases ha
    · rw [parse_schedule_g_from_content] at ha
      have := (List.mem_filter.mp ha).2
      cases hn : a.name with
      | none =>
        rw [hn] at this
        exact absurd this (by decide)
      | some s =>
        refine ⟨s, rfl, ?_⟩
        rw [hn] at this
        have hb : (s != "") = true := this
        simpa using hb
  · intro a hfalse xml ha
    cases xml with
    | none => cases ha
    | some root =>
      rw [parse_schedule_g_from_content] at ha
      have := (List.mem_filter.mp ha).2
      exact Bool.noConfusion (hfalse.symm.trans this)
  · intro entry h
    show firstTagAmt entry amount_paid_tags = none
    exact firstTagAmt_none entry amount_paid_tags h

/-- C7 witness: the concrete group with name "Acme Fundraising" and
amount text "N/A" yields an agency that is kept (truthy name) with
amount_paid absent. -/
theorem scheduleG_name_amount_spec_witness :
    (∃ s, (extractAgency exEntryG).name = some s ∧ s ≠ "")
  ∧ (extractAgency exEntryG).amount_paid = none :=
  ⟨scheduleG_name_amount_spec.1 (some exDocG) (extractAgency exEntryG)
      (by
        have : parse_schedule_g_from_content (some exDocG) = [extractAgency exEntryG] := by
          decide
        rw [this]
        exact List.mem_cons_self _ _),
   scheduleG_name_amount_spec.2.2 exEntryG
      (by
        intro tg htg t ht
        fin_cases htg
        · have ht2 : some "N/A" = some t := ht
          injection ht2 with ht3
          rw [← ht3]
          decide
        · exact Option.noConfusion (show (none : Option String) = some t from ht)
        · exact Option.noConfusion (show (none : Option String) = some t from ht)
        · exact Option.noConfusion (show (none : Option String) = some t from ht)
        · exact Option.noConfusion (show (none : Option String) = some t from ht))⟩

/-- The first loop of get_fundraising_expense_from_xml returns the head
of the document-order stream of parseable candidate values. -/
theorem firstLoopScan_eq (l : List XmlElem) :
    firstLoopScan l = (l.filterMap candVal?).head? := by
  induction l with
  | nil => rfl
  | cons e rest ih =>
    rw [firstLoopScan, List.filterMap_cons]
    cases h : fundraising_total_tags.contains (localTag e.tag) with
    | false =>
      rw [if_neg Bool.false_ne_true]
      rw [show candVal? e = none from by
        rw [candVal?, h, if_neg Bool.false_ne_true]]
      exact ih
    | true =>
      rw [if_pos rfl]
      rw [show candVal? e = (pyText e).bind parseFloat? from by
        rw [candVal?, h, if_pos rfl]]
      cases hx : pyText e with
      | none =>
        dsimp only [Option.bind]
        exact ih
      | some t =>
        dsimp only [Option.bind]
        cases hp : parseFloat? t with
        | none =>
          dsimp only
          exact ih
        | some v =>
          dsimp only
          rfl

/-- C1 amended: get_fundraising_expense_from_xml scans the document in
document order and returns the value of the first element whose tag is
either of the two candidates and whose text parses — document order,
not candidate-priority order, decides between the two tags.  (By
contrast, parse_schedule_g_from_content does try its name candidates in
priority order: a truthy `PersonNm` hit wins regardless of the other
name tags.) -/
theorem fundraising_doc_order_spec :
    (∀ (root : XmlElem) (v : ℚ) (l : List ℚ),
        (iterList root).filterMap candVal? = v :: l →
        get_fundraising_expense_from_xml (some root) = v)
  ∧ (∀ (entry : XmlElem) (t : String), findTagText entry "PersonNm" = some t →
        (extractAgency entry).name = some (strTrim t)) := by
  constructor
  · intro root v l h
    rw [get_fundraising_expense_from_xml, firstLoopScan_eq, h]
    rfl
  · intro entry t h
    show (match (firstTagText entry agency_name_tags).map strTrim with
          | some t => some t
          | none => (findTagText entry "BusinessNameLine1Txt").map strTrim) =
        some (strTrim t)
    rw [show firstTagText entry agency_name_tags =
          match findTagText entry "PersonNm" with
          | some t => some t
          | none => firstTagText entry (agency_name_tags.drop 1) from rfl, h]
    rfl

/-- C1 counterexample: in a document where TotalFundrsngExpCurrentYrAmt
(value 111) precedes CYTotalFundraisingExpenseAmt (value 222), extraction
returns 111, not the value 222 of the higher-priority candidate, although
CYTotalFundraisingExpenseAmt is present and parseable. -/
theorem fundraising_doc_order_cex :
    get_fundraising_expense_from_xml (some exDocOrder) = 111
  ∧ (111 : ℚ) ≠ 222
  ∧ (∃ e ∈ iterList exDocOrder, localTag e.tag = "CYTotalFundraisingExpenseAmt" ∧
      (pyText e).bind parseFloat? = some 222) := by
  refine ⟨by decide, by decide,
    ⟨XmlElem.node "CYTotalFundraisingExpenseAmt" (some "222") [], ?_, by decide, by decide⟩⟩
  show _ ∈ [exDocOrder, XmlElem.node "TotalFundrsngExpCurrentYrAmt" (some "111") [],
            XmlElem.node "CYTotalFundraisingExpenseAmt" (some "222") []]
  exact List.mem_cons_of_mem _ (List.mem_cons_of_mem _ (List.mem_cons_self _ _))

/-- C1 amended witness: on the concrete document the head of the
candidate stream is 111 and extraction returns it; and a group whose
PersonNm is hit first gets that (trimmed) name. -/
theorem fundraising_doc_order_spec_witness :
    get_fundraising_expense_from_xml (some exDocOrder) = 111
  ∧ (extractAgency exEntryG).name = some (strTrim "Acme Fundraising") :=
  ⟨fundraising_doc_order_spec.1 exDocOrder 111 [222] (by decide),
   fundraising_doc_order_spec.2 exEntryG "Acme Fundraising" (by decide)⟩

/-- The record values of the scored pairs are exactly the updated
survivors, in input order. -/
theorem ffcPairsFrom_snd : ∀ (i : Nat) (l : List Person),
    (ffcPairsFrom i l).map Prod.snd =
      (l.filter fun o => 0 < scoreOfficer o).map updateOfficer := by
  intro i l
  induction l generalizing i with
  | nil => rfl
  | cons o rest ih =>
    by_cases h : 0 < scoreOfficer o
    · rw [ffcPairsFrom, if_pos h]
      simp only [List.map_cons, List.filter_cons, decide_eq_true h, ih]
      simp
    · rw [ffcPairsFrom, if_neg h]
      simp only [List.filter_cons]
      rw [if_neg (by simpa using h)]
      exact ih (i + 1)

/-- Every scored pair indexes an input officer with positive score whose
updated record it carries. -/
theorem ffcPairsFrom_mem : ∀ (i : Nat) (l : List Person) (pr : Nat × Person),
    pr ∈ ffcPairsFrom i l →
    ∃ o, l.get? (pr.1 - i) = some o ∧ i ≤ pr.1 ∧ 0 < scoreOfficer o ∧
      pr.2 = updateOfficer o := by
  intro i l
  induction l generalizing i with
  | nil => intro pr h; cases h
  | cons o rest ih =>
    intro pr hpr
    by_cases h : 0 < scoreOfficer o
    · rw [ffcPairsFrom, if_pos h] at hpr
      rcases List.mem_cons.mp hpr with rfl | hpr2
      · exact ⟨o, by simp, le_refl _, h, rfl⟩
      · obtain ⟨o2, hget, hle, hs, he⟩ := ih (i + 1) pr hpr2
        refine ⟨o2, ?_, by omega, hs, he⟩
        have harith : pr.1 - i = (pr.1 - (i + 1)) + 1 := by omega
        rw [harith, List.get?_cons_succ]
        exact hget
    · rw [ffcPairsFrom, if_neg h] at hpr
      obtain ⟨o2, hget, hle, hs, he⟩ := ih (i + 1) pr hpr
      refine ⟨o2, ?_, by omega, hs, he⟩
      have harith : pr.1 - i = (pr.1 - (i + 1)) + 1 := by omega
      rw [harith, List.get?_cons_succ]
      exact hget

/-- Membership in the truncated ranked list implies membership among the
scored pairs. -/
theorem mem_ffcTop4 (officers : List Person) (pr : Nat × Person)
    (h : pr ∈ ffcTop4 officers) : pr ∈ ffcPairs officers :=
  (List.perm_insertionSort rankGE _).mem_iff.mp ((List.take_sublist 4 _).subset h)

/-- C3: filter_fundraising_contacts drops every officer scoring 0 (each
returned contact carries a positive relevance_score), sorts the
survivors descending by the pair (relevance_score, compensation), and
returns at most the first 4 of that sorted list: the output is the
4-element prefix of a descending-sorted permutation of the updated
positive-score officers. -/
theorem ffc_rank_spec (officers : List Person) :
    (filter_fundraising_contacts officers).length ≤ 4
  ∧ filter_fundraising_contacts officers = (ffcAll officers).take 4
  ∧ List.Sorted personGE (ffcAll officers)
  ∧ (ffcAll officers).Perm
      ((officers.filter fun o => 0 < scoreOfficer o).map updateOfficer)
  ∧ (∀ c ∈ filter_fundraising_contacts officers,
      ∃ s, c.relevance_score = some s ∧ 0 < s) := by
  refine ⟨?_, ?_, ?_, ?_, ?_⟩
  · rw [filter_fundraising_contacts, List.length_map, ffcTop4, List.length_take]
    exact min_le_left _ _
  · rw [filter_fundraising_contacts, ffcTop4, ffcAll, List.map_take]
  · have hs := List.sorted_insertionSort rankGE (ffcPairs officers)
    exact List.Pairwise.map _ (fun a b hab => hab) hs
  · have he : (ffcPairs officers).map Prod.snd =
        (officers.filter fun o => 0 < scoreOfficer o).map updateOfficer :=
      ffcPairsFrom_snd 0 officers
    rw [ffcAll, ← he]
    exact (List.perm_insertionSort rankGE _).map Prod.snd
  · intro c hc
    rw [filter_fundraising_contacts] at hc
    obtain ⟨pr, hpr, rfl⟩ := List.mem_map.mp hc
    obtain ⟨o, hget, hle, hsc, he⟩ := ffcPairsFrom_mem 0 officers pr (mem_ffcTop4 _ _ hpr)
    exact ⟨scoreOfficer o, by rw [he]; rfl, hsc⟩

/-- C3 witness: on the concrete roster the cap, the prefix equation and
the positive-score property hold; the zero-scoring officer is gone. -/
theorem ffc_rank_spec_witness :
    (filter_fundraising_contacts exOfficers).length ≤ 4
  ∧ filter_fundraising_contacts exOfficers = (ffcAll exOfficers).take 4
  ∧ (∃ s, exOffCUpd.relevance_score = some s ∧ 0 < s) :=
  ⟨(ffc_rank_spec exOfficers).1,
   (ffc_rank_spec exOfficers).2.1,
   (ffc_rank_spec exOfficers).2.2.2.2 _ (by decide)⟩

/-- C10: the records returned by filter_fundraising_contacts are the
very slots of the caller's (mutated) officer list — index pr.1 of the
post-call store holds exactly the returned record pr.2 — each being the
input officer at that index with relevance_score and source written in
place (score positive); officers scoring 0 keep their original record
unchanged; and the function's return value is exactly the aliased pairs'
records. -/
theorem ffc_mutation_spec (officers : List Person) :
    (∀ pr ∈ ffcTop4 officers, (ffcStore officers).get? pr.1 = some pr.2)
  ∧ (∀ pr ∈ ffcTop4 officers, ∃ o, officers.get? pr.1 = some o ∧
        0 < scoreOfficer o ∧ pr.2 = updateOfficer o)
  ∧ (∀ (j : Nat) (o : Person), officers.get? j = some o → scoreOfficer o = 0 →
        (ffcStore officers).get? j = some o)
  ∧ filter_fundraising_contacts officers = (ffcTop4 officers).map Prod.snd := by
  have hmem : ∀ pr ∈ ffcTop4 officers, ∃ o, officers.get? pr.1 = some o ∧
      0 < scoreOfficer o ∧ pr.2 = updateOfficer o := by
    intro pr hpr
    obtain ⟨o, hget, _, hsc, he⟩ := ffcPairsFrom_mem 0 officers pr (mem_ffcTop4 _ _ hpr)
    exact ⟨o, by simpa using hget, hsc, he⟩
  refine ⟨?_, hmem, ?_, rfl⟩
  · intro pr hpr
    obtain ⟨o, hget, hsc, he⟩ := hmem pr hpr
    rw [ffcStore, List.get?_map, hget]
    dsimp only [Option.map]
    rw [if_pos hsc, ← he]
  · intro j o hget h0
    rw [ffcStore, List.get?_map, hget]
    dsimp only [Option.map]
    rw [if_neg (by omega)]

/-- C10 witness: on the concrete roster, returned entry (2, updated C)
is exactly slot 2 of the mutated store, and the zero-scoring officer at
slot 0 is unchanged. -/
theorem ffc_mutation_spec_witness :
    (ffcStore exOfficers).get? 2 = some exOffCUpd
  ∧ (ffcStore exOfficers).get? 0 = some exOffA :=
  ⟨(ffc_mutation_spec exOfficers).1 (2, exOffCUpd) (by decide),
   (ffc_mutation_spec exOfficers).2.2.1 0 exOffA rfl (by decide)⟩
theorem processOrg_cases (env : Env) (p : Params) (s : SearchState) (org : OrgStub) :
    processOrg env p s org = s ∨
    (org.ein ∉ s.seen_eins ∧
     (processOrg env p s org).seen_eins = org.ein :: s.seen_eins ∧
     (processOrg env p s org).trace = s.trace ++ [Event.fetched org.ein] ∧
     (processOrg env p s org).api_errors = s.api_errors ∧
     (processOrg env p s org).checked = s.checked + 1) := by
  rw [processOrg]
  split
  next h => exact Or.inl rfl
  next h =>
    refine Or.inr ⟨by simpa using h, ?_, ?_, ?_, ?_⟩ <;>
      · dsimp only
        rcases (evalOrg env p org.ein) with ⟨b, dopt⟩
        cases dopt <;> cases b <;> rfl

theorem fetchedEins_append (t1 t2 : List Event) :
    fetchedEins (t1 ++ t2) = fetchedEins t1 ++ fetchedEins t2 :=
  List.filterMap_append t1 t2 _

theorem searchErrCount_append (t1 t2 : List Event) :
    searchErrCount (t1 ++ t2) = searchErrCount t1 + searchErrCount t2 := by
  rw [searchErrCount, List.filter_append, List.length_append]
  rfl

theorem hasWarned_append (t1 t2 : List Event) :
    hasWarned (t1 ++ t2) = (hasWarned t1 || hasWarned t2) :=
  List.any_append

theorem C8Inv_processOrg (env : Env) (p : Params) (s : SearchState) (org : OrgStub)
    (h : C8Inv s) : C8Inv (processOrg env p s org) := by
  rcases processOrg_cases env p s org with heq | ⟨hnot, hseen, htrace, _, _⟩
  · rw [heq]; exact h
  · constructor
    · rw [htrace, fetchedEins_append]
      rw [List.nodup_append]
      refine ⟨h.1, List.nodup_singleton _, ?_⟩
      intro i hi hii
      have : i = org.ein := by simpa [fetchedEins] using hii
      exact hnot (this ▸ h.2 i hi)
    · intro i hi
      rw [htrace, fetchedEins_append] at hi
      rw [hseen]
      rcases List.mem_append.mp hi with h1 | h2
      · exact List.mem_cons_of_mem _ (h.2 i h1)
      · have : i = org.ein := by simpa [fetchedEins] using h2
        rw [this]; exact List.mem_cons_self _ _

theorem C9Inv_processOrg (env : Env) (p : Params) (s : SearchState) (org : OrgStub)
    (h : C9Inv s) : C9Inv (processOrg env p s org) := by
  rcases processOrg_cases env p s org with heq | ⟨_, _, htrace, herr, _⟩
  · rw [heq]; exact h
  · constructor
    · rw [herr, htrace, searchErrCount_append, h.1]
      rfl
    · rw [herr, htrace, hasWarned_append]
      have : hasWarned [Event.fetched org.ein] = false := rfl
      rw [this, Bool.or_false]
      exact h.2

theorem seen_suffix_processOrg (env : Env) (p : Params) (s : SearchState) (org : OrgStub) :
    ∃ l, (processOrg env p s org).seen_eins = l ++ s.seen_eins := by
  rcases processOrg_cases env p s org with heq | ⟨_, hseen, _, _, _⟩
  · exact ⟨[], by rw [heq]; rfl⟩
  · exact ⟨[org.ein], hseen⟩

theorem apiErrors_mono_processOrg (env : Env) (p : Params) (s : SearchState) (org : OrgStub) :
    s.api_errors ≤ (processOrg env p s org).api_errors := by
  rcases processOrg_cases env p s org with heq | ⟨_, _, _, herr, _⟩
  · rw [heq]
  · rw [herr]

theorem C8Inv_processOrgs (env : Env) (p : Params) :
    ∀ (orgs : List OrgStub) (s : SearchState), C8Inv s → C8Inv (processOrgs env p s orgs) := by
  intro orgs
  induction orgs with
  | nil => intro s h; exact h
  | cons org rest ih =>
    intro s h
    rw [processOrgs]
    split
    · exact h
    · exact ih _ (C8Inv_processOrg env p s org h)

theorem C9Inv_processOrgs (env : Env) (p : Params) :
    ∀ (orgs : List OrgStub) (s : SearchState), C9Inv s → C9Inv (processOrgs env p s orgs) := by
  intro orgs
  induction orgs with
  | nil => intro s h; exact h
  | cons org rest ih =>
    intro s h
    rw [processOrgs]
    split
    · exact h
    · exact ih _ (C9Inv_processOrg env p s org h)

theorem seen_suffix_processOrgs (env : Env) (p : Params) :
    ∀ (orgs : List OrgStub) (s : SearchState),
      ∃ l, (processOrgs env p s orgs).seen_eins = l ++ s.seen_eins := by
  intro orgs
  induction orgs with
  | nil => exact fun s => ⟨[], rfl⟩
  | cons org rest ih =>
    intro s
    rw [processOrgs]
    split
    · exact ⟨[], rfl⟩
    · obtain ⟨l1, h1⟩ := seen_suffix_processOrg env p s org
      obtain ⟨l2, h2⟩ := ih (processOrg env p s org)
      exact ⟨l2 ++ l1, by rw [h2, h1, List.append_assoc]⟩

theorem apiErrors_mono_processOrgs (env : Env) (p : Params) :
    ∀ (orgs : List OrgStub) (s : SearchState),
      s.api_errors ≤ (processOrgs env p s orgs).api_errors := by
  intro orgs
  induction orgs with
  | nil => exact fun s => le_refl _
  | cons org rest ih =>
    intro s
    rw [processOrgs]
    split
    · exact le_refl _
    · exact (apiErrors_mono_processOrg env p s org).trans (ih _)

theorem C8Inv_runPages (env : Env) (p : Params) (kw : String) :
    ∀ (fuel page : Nat) (s : SearchState), C8Inv s → C8Inv (runPages env p kw page fuel s) := by
  intro fuel
  induction fuel with
  | zero => intro page s h; exact h
  | succ n ih =>
    intro page s h
    rw [runPages]
    split
    · exact h
    · split
      · dsimp only
        split
        · constructor
          · rw [fetchedEins_append, fetchedEins_append]
            simpa [fetchedEins] using h.1
          · intro i hi
            rw [fetchedEins_append, fetchedEins_append] at hi
            simp only [fetchedEins, List.filterMap] at hi
            exact h.2 i (by simpa [fetchedEins] using hi)
        · constructor
          · rw [fetchedEins_append]
            simpa [fetchedEins] using h.1
          · intro i hi
            rw [fetchedEins_append] at hi
            exact h.2 i (by simpa [fetchedEins] using hi)
      · dsimp only
        split
        · constructor
          · rw [fetchedEins_append]
            simpa [fetchedEins] using h.1
          · intro i hi
            rw [fetchedEins_append] at hi
            exact h.2 i (by simpa [fetchedEins] using hi)
        · refine ih _ _ (C8Inv_processOrgs env p _ _ ?_)
          constructor
          · rw [fetchedEins_append]
            simpa [fetchedEins] using h.1
          · intro i hi
            rw [fetchedEins_append] at hi
            exact h.2 i (by simpa [fetchedEins] using hi)

theorem C9Inv_runPages (env : Env) (p : Params) (kw : String) :
    ∀ (fuel page : Nat) (s : SearchState), C9Inv s → C9Inv (runPages env p kw page fuel s) := by
  intro fuel
  induction fuel with
  | zero => intro page s h; exact h
  | succ n ih =>
    intro page s h
    rw [runPages]
    split
    · exact h
    · split
      · dsimp only
        split
        next hc =>
          constructor
          · rw [searchErrCount_append, searchErrCount_append, h.1]
            rfl
          · rw [hasWarned_append, hasWarned_append]
            have hw : hasWarned [Event.warned] = true := rfl
            rw [hw, Bool.or_true]
            simpa using hc
        next hc =>
          constructor
          · rw [searchErrCount_append, h.1]
            rfl
          · rw [hasWarned_append]
            have hse : hasWarned [Event.searchErr kw page] = false := rfl
            rw [hse, Bool.or_false]
            constructor
            · intro hwt
              have h5 : 5 ≤ s.api_errors := h.2.mp hwt
              omega
            · intro h5
              exact absurd h5 hc
      · dsimp only
        have hok : C9Inv { s with trace := s.trace ++ [Event.searchOk kw page] } := by
          constructor
          · rw [searchErrCount_append, h.1]
            rfl
          · rw [hasWarned_append]
            have hso : hasWarned [Event.searchOk kw page] = false := rfl
            rw [hso, Bool.or_false]
            exact h.2
        split
        · exact hok
        · exact ih _ _ (C9Inv_processOrgs env p _ _ hok)

theorem seen_suffix_runPages (env : Env) (p : Params) (kw : String) :
    ∀ (fuel page : Nat) (s : SearchState),
      ∃ l, (runPages env p kw page fuel s).seen_eins = l ++ s.seen_eins := by
  intro fuel
  induction fuel with
  | zero => intro page s; exact ⟨[], rfl⟩
  | succ n ih =>
    intro page s
    rw [runPages]
    split
    · exact ⟨[], rfl⟩
    · split
      · dsimp only
        split
        · exact ⟨[], rfl⟩
        · exact ⟨[], rfl⟩
      · dsimp only
        split
        · exact ⟨[], rfl⟩
        · obtain ⟨l1, h1⟩ :=
            seen_suffix_processOrgs env p _ { s with trace := s.trace ++ [Event.searchOk kw page] }
          obtain ⟨l2, h2⟩ := ih (page + 1) (processOrgs env p { s with
            trace := s.trace ++ [Event.searchOk kw page] } _)
          exact ⟨l2 ++ l1, by rw [h2, h1, List.append_assoc]⟩

theorem apiErrors_mono_runPages (env : Env) (p : Params) (kw : String) :
    ∀ (fuel page : Nat) (s : SearchState),
      s.api_errors ≤ (runPages env p kw page fuel s).api_errors := by
  intro fuel
  induction fuel with
  | zero => intro page s; exact le_refl _
  | succ n ih =>
    intro page s
    rw [runPages]
    split
    · exact le_refl _
    · split
      · dsimp only
        split
        · exact Nat.le_succ _
        · exact Nat.le_succ _
      · dsimp only
        split
        · exact le_refl _
        · exact le_trans
            (apiErrors_mono_processOrgs env p _ { s with
              trace := s.trace ++ [Event.searchOk kw page] })
            (ih (page + 1) _)

theorem C8Inv_runKeywords (env : Env) (p : Params) (ppk : Nat) :
    ∀ (kws : List String) (s : SearchState), C8Inv s → C8Inv (runKeywords env p ppk kws s) := by
  intro kws
  induction kws with
  | nil => intro s h; exact h
  | cons kw rest ih =>
    intro s h
    rw [runKeywords]
    split
    · exact h
    · exact ih _ (C8Inv_runPages env p kw ppk 0 s h)

theorem C9Inv_runKeywords (env : Env) (p : Params) (ppk : Nat) :
    ∀ (kws : List String) (s : SearchState), C9Inv s → C9Inv (runKeywords env p ppk kws s) := by
  intro kws
  induction kws with
  | nil => intro s h; exact h
  | cons kw rest ih =>
    intro s h
    rw [runKeywords]
    split
    · exact h
    · exact ih _ (C9Inv_runPages env p kw ppk 0 s h)

theorem seen_suffix_runKeywords (env : Env) (p : Params) (ppk : Nat) :
    ∀ (kws : List String) (s : SearchState),
      ∃ l, (runKeywords env p ppk kws s).seen_eins = l ++ s.seen_eins := by
  intro kws
  induction kws with
  | nil => intro s; exact ⟨[], rfl⟩
  | cons kw rest ih =>
    intro s
    rw [runKeywords]
    split
    · exact ⟨[], rfl⟩
    · obtain ⟨l1, h1⟩ := seen_suffix_runPages env p kw ppk 0 s
      obtain ⟨l2, h2⟩ := ih (runPages env p kw 0 ppk s)
      exact ⟨l2 ++ l1, by rw [h2, h1, List.append_assoc]⟩

theorem apiErrors_mono_runKeywords (env : Env) (p : Params) (ppk : Nat) :
    ∀ (kws : List String) (s : SearchState),
      s.api_errors ≤ (runKeywords env p ppk kws s).api_errors := by
  intro kws
  induction kws with
  | nil => intro s; exact le_refl _
  | cons kw rest ih =>
    intro s
    rw [runKeywords]
    split
    · exact le_refl _
    · exact le_trans (apiErrors_mono_runPages env p kw ppk 0 s) (ih _)

theorem c8inv_init : C8Inv initState :=
  ⟨List.nodup_nil, fun i hi => absurd hi (List.not_mem_nil i)⟩

theorem c9inv_init : C9Inv initState :=
  ⟨rfl, by
    constructor
    · intro hw
      exact absurd hw (by decide)
    · intro h5
      exact absurd h5 (by decide)⟩

/-- C8: across one run every EIN is processed at most once — the fetch
trace has no duplicate EIN, each fetched EIN is recorded in the final
seen-set, a stub whose EIN is already in the seen-set leaves the state
completely unchanged (no detail fetch, no filtering), and the seen-set
only grows during the run. -/
theorem ein_dedup_spec (env : Env) (p : Params) :
    (fetchedEins (phase1 env p).trace).Nodup
  ∧ (∀ i ∈ fetchedEins (phase1 env p).trace, i ∈ (phase1 env p).seen_eins)
  ∧ (∀ (s : SearchState) (org : OrgStub), s.seen_eins.contains org.ein = true →
        processOrg env p s org = s)
  ∧ (∀ (s : SearchState) (ppk : Nat) (kws : List String),
        ∃ l, (runKeywords env p ppk kws s).seen_eins = l ++ s.seen_eins) := by
  have h := C8Inv_runKeywords env p (max 1 (p.max_pages / (searchKeywordsOf p).length))
      (searchKeywordsOf p) initState c8inv_init
  refine ⟨h.1, h.2, ?_, ?_⟩
  · intro s org hc
    rw [processOrg, if_pos hc]
  · intro s ppk kws
    exact seen_suffix_runKeywords env p ppk kws s

/-- C8 witness: in an environment where EIN 7 is returned under two
different keywords, the fetch trace is duplicate-free ([7, 8]); a state
that has seen EIN 7 skips a stub with that EIN untouched. -/
theorem ein_dedup_spec_witness :
    (fetchedEins (phase1 env8 p9).trace).Nodup
  ∧ processOrg env8 p9 st8 stub8 = st8
  ∧ (∃ l, (runKeywords env8 p9 1 ["foundation"] st8).seen_eins = l ++ st8.seen_eins)
  ∧ fetchedEins (phase1 env8 p9).trace = [some 7, some 8] :=
  ⟨(ein_dedup_spec env8 p9).1,
   (ein_dedup_spec env8 p9).2.2.1 st8 stub8 (by decide),
   (ein_dedup_spec env8 p9).2.2.2 st8 1 ["foundation"],
   by decide⟩

/-- C9 amended: the error counter holds the cumulative number of
search-API errors across the whole run (it is never reset by a
successful search), the "Too many API errors" warning has been signalled
exactly when that total has reached five, and the counter never
decreases; each error only ends the current keyword's pagination, and
the (total) run function always returns a final state — no crash. -/
theorem api_error_counter_spec (env : Env) (p : Params) :
    (phase1 env p).api_errors = searchErrCount (phase1 env p).trace
  ∧ (hasWarned (phase1 env p).trace = true ↔ 5 ≤ (phase1 env p).api_errors)
  ∧ (∀ (s : SearchState) (ppk : Nat) (kws : List String),
        s.api_errors ≤ (runKeywords env p ppk kws s).api_errors) := by
  have h := C9Inv_runKeywords env p (max 1 (p.max_pages / (searchKeywordsOf p).length))
      (searchKeywordsOf p) initState c9inv_init
  exact ⟨h.1, h.2, fun s ppk kws => apiErrors_mono_runKeywords env p ppk kws s⟩

/-- C9 amended witness: on the concrete run the counter equals the
trace's error total, and the warning bi-implication holds. -/
theorem api_error_counter_spec_witness :
    (phase1 env9 p9).api_errors = searchErrCount (phase1 env9 p9).trace
  ∧ (hasWarned (phase1 env9 p9).trace = true ↔ 5 ≤ (phase1 env9 p9).api_errors)
  ∧ initState.api_errors ≤ (runKeywords env9 p9 1 ["foundation"] initState).api_errors :=
  ⟨(api_error_counter_spec env9 p9).1,
   (api_error_counter_spec env9 p9).2.1,
   (api_error_counter_spec env9 p9).2.2 initState 1 ["foundation"]⟩

/-- C9 counterexample: in a run whose search errors are NOT consecutive
(a successful "hospital" search intervenes; the longest error run is 4),
the counter still reaches 5 and the warning is signalled — so the
counter reflects cumulative, not consecutive, failures, and the
condition does not require five in a row with no intervening success. -/
theorem api_error_counter_cex :
    hasWarned (phase1 env9 p9).trace = true
  ∧ (phase1 env9 p9).api_errors = 5
  ∧ maxConsecErrs (phase1 env9 p9).trace = 4
  ∧ searchErrCount (phase1 env9 p9).trace = 5 :=
  ⟨by decide, by decide, by decide, by decide⟩
